import Mathlib

/-!
Verification of the battery-notify daemon's status-aggregation and
notification-debounce engine, shallowly embedded from the Rust sources
(`src/main.rs`, `src/system.rs`, `src/notification.rs`, `src/config.rs`).

Machine integers (`u64`) are modelled as `Nat` with explicit wrapping
(`% 2 ^ 64`) at each arithmetic step where the Rust release-mode semantics
wraps.  Fallible operations (`.unwrap()` on a parse) are modelled with
`Option`.  The notification daemon side effects are modelled as explicit
event lists; a fresh handle counter is threaded through to give every
underlying `show` call a unique handle.
-/

namespace BatteryNotify

/-- `BatteryState` from `src/main.rs` lines 15–28 (identical in
`src/system.rs` lines 7–20).  The serde renames give `NotCharging` the
canonical string "Not charging" and `AtThreshold` the string
"At threshold". -/
inductive BatteryState where
  | Discharging
  | Charging
  | NotCharging
  | Full
  | Unknown
  | AtThreshold
  | Invalid
deriving DecidableEq, Repr

/-- The `u64` wrap bound. -/
def u64Lim : Nat := 2 ^ 64

/-- Wrapping `u64` addition (Rust release-mode `+`). -/
def wrapAdd (a b : Nat) : Nat := (a + b) % u64Lim

/-- Wrapping `u64` multiplication (Rust release-mode `*`). -/
def wrapMul (a b : Nat) : Nat := (a * b) % u64Lim

/-- `Iterator::sum` over `u64`, wrapping at each addition. -/
def wrapSum (l : List Nat) : Nat := l.foldl wrapAdd 0

/-- `Battery` from `src/main.rs` lines 30–35: a per-battery reading. -/
structure Battery where
  state : BatteryState
  now_uwh : Nat
  full_uwh : Nat
deriving DecidableEq, Repr

/-- `Battery::level` from `src/main.rs` lines 37–45: integer percentage,
clamped to 100.  Rust's `/` panics on a zero divisor; Lean's `Nat` division
returns 0 there, which is only relied on under a positivity hypothesis. -/
def Battery.level (b : Battery) : Nat :=
  let level := wrapMul b.now_uwh 100 / b.full_uwh
  if level > 100 then 100 else level

/-- The state reduction of `get_global_battery`, `src/main.rs` lines
259–277 (identical in `src/system.rs` lines 93–111). -/
def getGlobalBatteryState (batteries : List Battery) : BatteryState :=
  if batteries.any (fun b => b.state == .Charging) then .Charging
  else if batteries.any (fun b => b.state == .Discharging) then .Discharging
  else if batteries.all (fun b => b.state == .Full) then .Full
  else if batteries.all (fun b =>
      b.state == .Unknown || b.state == .NotCharging || b.state == .Full) then
    .AtThreshold
  else .Discharging

/-- `get_global_battery` from `src/main.rs` lines 258–284: the aggregated
global battery, with energies summed across batteries. -/
def getGlobalBattery (batteries : List Battery) : Battery :=
  { state := getGlobalBatteryState batteries
    now_uwh := wrapSum (batteries.map (·.now_uwh))
    full_uwh := wrapSum (batteries.map (·.full_uwh)) }

/-- `battery_state_to_name` (`src/main.rs` lines 130–132): the serde_plain
serialisation of a state, using the rename attributes on the enum. -/
def batteryStateToName : BatteryState → String
  | .Discharging => "Discharging"
  | .Charging => "Charging"
  | .NotCharging => "Not charging"
  | .Full => "Full"
  | .Unknown => "Unknown"
  | .AtThreshold => "At threshold"
  | .Invalid => "Invalid"

/-- `str::to_lowercase` restricted to the ASCII strings used here. -/
def lowercase (s : String) : String := ⟨s.data.map Char.toLower⟩

/-- `name_to_battery_state` from `src/main.rs` lines 126–128:
`serde_plain::from_str(name).unwrap()`.  serde matches exactly the seven
canonical variant strings; any other input makes `from_str` return an
error and the `.unwrap()` panic, modelled here as `none`. -/
def nameToBatteryState (name : String) : Option BatteryState :=
  if name = "Discharging" then some .Discharging
  else if name = "Charging" then some .Charging
  else if name = "Not charging" then some .NotCharging
  else if name = "Full" then some .Full
  else if name = "Unknown" then some .Unknown
  else if name = "At threshold" then some .AtThreshold
  else if name = "Invalid" then some .Invalid
  else none

/-- `BluetoothBattery` from `src/main.rs` lines 47–51. -/
structure BluetoothBattery where
  name : String
  level : Nat
deriving DecidableEq, Repr

/-- notify_rust's `Urgency` levels. -/
inductive Urgency where
  | Low
  | Normal
  | Critical
deriving DecidableEq, Repr

/-! ### `src/notification.rs`: the debouncing notification slot

The underlying notifier is modelled by an event trace: every underlying
`Notification::show` call gets a fresh handle from a threaded counter and
is recorded as a `showCall` event whose `ok` flag says whether the call
returned a handle (`.ok()` swallows errors); `hnd.close()` is recorded as
a `closeCall` event. -/

namespace Notif

/-- An underlying notifier call. -/
inductive NEvent where
  | showCall (h : Nat) (ok : Bool) (text : String) (u : Urgency) (timeout : Int)
  | closeCall (h : Nat)
deriving DecidableEq, Repr

/-- Whether an event is an underlying `show` call. -/
def NEvent.isShow : NEvent → Bool
  | .showCall _ _ _ _ _ => true
  | .closeCall _ => false

/-- `SingleNotification` from `src/notification.rs` lines 4–8. -/
structure SingleNotification where
  hnd : Option Nat
  summary : Option String
deriving DecidableEq, Repr

/-- The `#[derive(Default)]` state: no handle, no summary. -/
def SingleNotification.new : SingleNotification := { hnd := none, summary := none }

/-- `SingleNotification::close`, `src/notification.rs` lines 26–33:
`hnd.take()` is always executed, but the remembered summary is `take`n
only when a handle was present. -/
def SingleNotification.close (s : SingleNotification) :
    SingleNotification × List NEvent :=
  match s.hnd with
  | some h => ({ hnd := none, summary := none }, [.closeCall h])
  | none => (s, [])

/-- `SingleNotification::show`, `src/notification.rs` lines 11–24: no-op
when the remembered summary equals the argument; otherwise close the old
notification, issue one underlying `show` call, remember the summary. -/
def SingleNotification.show (s : SingleNotification) (summary : String)
    (urgency : Urgency) (timeout : Int) (cnt : Nat) (ok : Bool) :
    SingleNotification × Nat × List NEvent :=
  if s.summary = some summary then (s, cnt, [])
  else
    ({ hnd := if ok then some cnt else none, summary := some summary },
      cnt + 1,
      (s.close).2 ++ [.showCall cnt ok summary urgency timeout])

/-- `Drop for SingleNotification`, `src/notification.rs` lines 36–40. -/
def SingleNotification.drop (s : SingleNotification) :
    SingleNotification × List NEvent :=
  s.close

/-- One client operation on a slot (the `ok` flag of a `show` records
whether the underlying notifier call succeeds). -/
inductive SlotOp where
  | show (text : String) (u : Urgency) (timeout : Int) (ok : Bool)
  | close
deriving DecidableEq, Repr

/-- Run a sequence of slot operations, collecting all notifier events. -/
def runOps (s : SingleNotification) (cnt : Nat) :
    List SlotOp → SingleNotification × Nat × List NEvent
  | [] => (s, cnt, [])
  | op :: rest =>
    let r :=
      match op with
      | .show t u tmo ok => s.show t u tmo cnt ok
      | .close => ((s.close).1, cnt, (s.close).2)
    let r2 := runOps r.1 r.2.1 rest
    (r2.1, r2.2.1, r.2.2 ++ r2.2.2)

/-- The handles live after `evs`, starting from the live list `acc`:
a successful `showCall` opens its handle, a `closeCall` closes it. -/
def liveFrom (acc : List Nat) (evs : List NEvent) : List Nat :=
  evs.foldl
    (fun acc ev =>
      match ev with
      | .showCall h true _ _ _ => acc ++ [h]
      | .showCall _ false _ _ _ => acc
      | .closeCall h => acc.erase h)
    acc

/-- The handles live after the trace `evs` from a fresh notifier. -/
def liveAfter (evs : List NEvent) : List Nat := liveFrom [] evs

end Notif

/-! ### `src/main.rs`: the daemon loop

`main.rs` carries its own copy of `SingleNotification` (lines 77–116),
identical in `show` but whose `close` does **not** clear the remembered
summary.  Events additionally record shell command executions
(`run_sleep_command`).  The notifier success of each underlying call is
drawn from an `oracle` indexed by the fresh handle counter. -/

namespace MainRs

/-- An observable side effect of one tick. -/
inductive Event where
  | showCall (h : Nat) (ok : Bool) (text : String) (u : Urgency)
  | closeCall (h : Nat)
  | runCmd (cmd : String)
deriving DecidableEq, Repr

/-- Whether an event is a shell-command execution. -/
def Event.isRun : Event → Bool
  | .runCmd _ => true
  | _ => false

/-- `SingleNotification` from `src/main.rs` lines 77–80 (summary is a
plain `String`, initially empty). -/
structure SingleNotification where
  hnd : Option Nat
  summary : String
deriving DecidableEq, Repr

/-- `SingleNotification::new`, `src/main.rs` lines 83–88. -/
def SingleNotification.new : SingleNotification := { hnd := none, summary := "" }

/-- `SingleNotification::close`, `src/main.rs` lines 104–109 — the
summary is left untouched. -/
def SingleNotification.close (s : SingleNotification) :
    SingleNotification × List Event :=
  match s.hnd with
  | some h => ({ hnd := none, summary := s.summary }, [.closeCall h])
  | none => (s, [])

/-- `SingleNotification::show`, `src/main.rs` lines 90–102. -/
def SingleNotification.show (s : SingleNotification) (summary : String)
    (urgency : Urgency) (cnt : Nat) (oracle : Nat → Bool) :
    SingleNotification × Nat × List Event :=
  if s.summary = summary then (s, cnt, [])
  else
    ({ hnd := if oracle cnt then some cnt else none, summary := summary },
      cnt + 1,
      (s.close).2 ++ [.showCall cnt (oracle cnt) summary urgency])

/-- `Config` from `src/main.rs` lines 53–62. -/
structure Config where
  sleep_command : String
  interval_secs : Nat
  sleep_pct : Nat
  low_pct : Nat
  warn_on_mons_with_no_ac : Nat
  bluetooth_low_pct : Nat
deriving DecidableEq, Repr

/-- `Default for Config`, `src/main.rs` lines 64–75. -/
def defaultConfig : Config :=
  { sleep_command := "systemctl suspend"
    interval_secs := 30
    sleep_pct := 15
    low_pct := 40
    warn_on_mons_with_no_ac := 2
    bluetooth_low_pct := 40 }

/-- The loop-carried mutable state of `main`, `src/main.rs` lines
295–303 (`counter` is the model's fresh-handle supply). -/
structure LoopState where
  state_notif : SingleNotification
  low_notif : SingleNotification
  mon_notif : SingleNotification
  next_sleep_epoch : Nat
  bbat_notifs : List (String × SingleNotification)
  counter : Nat
deriving DecidableEq, Repr

/-- The state-notification text of `src/main.rs` lines 332–338. -/
def stateText (st : BatteryState) : String :=
  "Battery now " ++ lowercase (batteryStateToName st)

/-- `src/main.rs` lines 332–338: show the global-state notification. -/
def stateStep (global : Battery) (sn : SingleNotification) (cnt : Nat)
    (oracle : Nat → Bool) : SingleNotification × Nat × List Event :=
  sn.show (stateText global.state) .Normal cnt oracle

/-- `src/main.rs` lines 342–353: the low/critical band chain, including
the suspend command and its 60-second backoff (`sleep_backoff`, line 298;
`next_sleep_epoch` update and `run_sleep_command`, lines 347–349).
Returns (low slot, next_sleep_epoch, counter, events). -/
def lowStep (cfg : Config) (global : Battery) (start : Nat)
    (ln : SingleNotification) (nse cnt : Nat) (oracle : Nat → Bool) :
    SingleNotification × Nat × Nat × List Event :=
  if global.state = .Charging then
    let r := ln.close
    (r.1, nse, cnt, r.2)
  else if global.level ≤ cfg.sleep_pct then
    let r := ln.show "Battery critical" .Critical cnt oracle
    if nse < start then
      (r.1, start + 60, r.2.1, r.2.2 ++ [.runCmd cfg.sleep_command])
    else
      (r.1, nse, r.2.1, r.2.2)
  else if global.level ≤ cfg.low_pct then
    let r := ln.show "Battery low" .Critical cnt oracle
    (r.1, nse, r.2.1, r.2.2)
  else
    (ln, nse, cnt, [])

/-- `src/main.rs` lines 355–368: the monitors-without-AC warning
(`monitors` is the probe result after `unwrap_or(0)`). -/
def monStep (cfg : Config) (global : Battery) (monitors : Nat)
    (mn : SingleNotification) (cnt : Nat) (oracle : Nat → Bool) :
    SingleNotification × Nat × List Event :=
  if 0 < cfg.warn_on_mons_with_no_ac ∧ global.state = .Discharging then
    if cfg.warn_on_mons_with_no_ac ≤ monitors then
      mn.show ("Connected to " ++ toString monitors ++ " monitors but not AC")
        .Critical cnt oracle
    else
      let r := mn.close
      (r.1, cnt, r.2)
  else
    let r := mn.close
    (r.1, cnt, r.2)

/-- Lookup in the Bluetooth slot map (hashbrown `HashMap` modelled as an
association list with unique keys). -/
def lookupSlot (m : List (String × SingleNotification)) (k : String) :
    Option SingleNotification :=
  match m.find? (fun kv => kv.1 == k) with
  | some kv => some kv.2
  | none => none

/-- Write back an entry: replace the first binding of `k`, or append a
new one (the `raw_entry_mut().or_insert_with` of line 374–377). -/
def updateSlot : List (String × SingleNotification) → String →
    SingleNotification → List (String × SingleNotification)
  | [], k, v => [(k, v)]
  | kv :: rest, k, v =>
    if kv.1 = k then (k, v) :: rest else kv :: updateSlot rest k v

/-- `src/main.rs` lines 373–383: per-device body of the Bluetooth loop. -/
def btDeviceStep (cfg : Config) (oracle : Nat → Bool)
    (acc : List (String × SingleNotification) × Nat × List Event)
    (bbat : BluetoothBattery) :
    List (String × SingleNotification) × Nat × List Event :=
  let slot := (lookupSlot acc.1 bbat.name).getD SingleNotification.new
  let r :=
    if bbat.level ≤ cfg.bluetooth_low_pct then
      slot.show (bbat.name ++ " battery low") .Critical acc.2.1 oracle
    else
      ((slot.close).1, acc.2.1, (slot.close).2)
  (updateSlot acc.1 bbat.name r.1, r.2.1, acc.2.2 ++ r.2.2)

/-- `src/main.rs` lines 373–386: the Bluetooth loop followed by the
`retain` prune; dropping a pruned entry closes its live notification
(`Drop for SingleNotification`). -/
def bluetoothStep (cfg : Config) (m : List (String × SingleNotification))
    (bbats : List BluetoothBattery) (cnt : Nat) (oracle : Nat → Bool) :
    List (String × SingleNotification) × Nat × List Event :=
  let r := bbats.foldl (btDeviceStep cfg oracle) (m, cnt, [])
  let keep := r.1.filter (fun kv => bbats.any (fun b => b.name == kv.1))
  let removed := r.1.filter (fun kv => !(bbats.any (fun b => b.name == kv.1)))
  (keep, r.2.1, r.2.2 ++ removed.filterMap (fun kv => kv.2.hnd.map Event.closeCall))

/-- One tick of the daemon loop, `src/main.rs` lines 330–387 (the body
after the fatal empty-battery check):  global aggregation, state
notification, low/critical band, monitor warning, Bluetooth handling. -/
def tick (cfg : Config) (s : LoopState) (start : Nat)
    (batteries : List Battery) (monitors : Nat)
    (bbats : List BluetoothBattery) (oracle : Nat → Bool) :
    LoopState × List Event :=
  let global := getGlobalBattery batteries
  let r1 := stateStep global s.state_notif s.counter oracle
  let r2 := lowStep cfg global start s.low_notif s.next_sleep_epoch r1.2.1 oracle
  let r3 := monStep cfg global monitors s.mon_notif r2.2.2.1 oracle
  let r4 :=
    if cfg.bluetooth_low_pct ≠ 0 then
      bluetoothStep cfg s.bbat_notifs bbats r3.2.1 oracle
    else
      (s.bbat_notifs, r3.2.1, [])
  ({ state_notif := r1.1, low_notif := r2.1, mon_notif := r3.1,
     next_sleep_epoch := r2.2.1, bbat_notifs := r4.1, counter := r4.2.1 },
    r1.2.2 ++ r2.2.2.2 ++ r3.2.2 ++ r4.2.2)

/-- `src/main.rs` lines 389–396: the end-of-loop sleep.  `some d` means
`timer.sleep(d)` is called with the positive duration `d`; `none` means
the sleep is skipped entirely. -/
def tickSleep (interval elapsed : Nat) : Option Nat :=
  if elapsed < interval then some (interval - elapsed) else none

/-- The time at which the next tick starts: the current tick's start,
plus its processing time, plus the sleep (if any). -/
def nextTickStart (start elapsed interval : Nat) : Nat :=
  start + elapsed + (tickSleep interval elapsed).getD 0

end MainRs

end BatteryNotify

namespace BatteryNotify

/-! ## Arithmetic helper lemmas -/

theorem foldl_wrapAdd_eq (l : List Nat) :
    ∀ acc : Nat, acc + l.sum < u64Lim → l.foldl wrapAdd acc = acc + l.sum := by
  induction l with
  | nil => intro acc _; simp
  | cons a t ih =>
    intro acc hlt
    have hsum : (a :: t).sum = a + t.sum := by simp
    rw [hsum] at hlt
    have h2 : wrapAdd acc a = acc + a := by
      unfold wrapAdd
      exact Nat.mod_eq_of_lt (by omega)
    simp only [List.foldl_cons, h2]
    rw [ih (acc + a) (by omega), hsum]
    omega

theorem wrapSum_eq_sum (l : List Nat) (h : l.sum < u64Lim) : wrapSum l = l.sum := by
  unfold wrapSum
  simpa using foldl_wrapAdd_eq l 0 (by simpa using h)

/-! ## C1: the global state reduction priority order -/

/-- C1: for every non-empty list of battery readings, the aggregated
global state is decided by the first matching rule of the priority order:
any `Charging` → `Charging`; else any `Discharging` → `Discharging`;
else all `Full` → `Full`; else all of `Unknown`/`NotCharging`/`Full` →
`AtThreshold`; else → `Discharging`. -/
theorem c1_global_state_priority (bs : List Battery) (_hne : bs ≠ []) :
    ((∃ b ∈ bs, b.state = BatteryState.Charging) →
        (getGlobalBattery bs).state = BatteryState.Charging) ∧
    ((¬ ∃ b ∈ bs, b.state = BatteryState.Charging) →
      (∃ b ∈ bs, b.state = BatteryState.Discharging) →
        (getGlobalBattery bs).state = BatteryState.Discharging) ∧
    ((¬ ∃ b ∈ bs, b.state = BatteryState.Charging) →
      (¬ ∃ b ∈ bs, b.state = BatteryState.Discharging) →
      (∀ b ∈ bs, b.state = BatteryState.Full) →
        (getGlobalBattery bs).state = BatteryState.Full) ∧
    ((¬ ∃ b ∈ bs, b.state = BatteryState.Charging) →
      (¬ ∃ b ∈ bs, b.state = BatteryState.Discharging) →
      (¬ ∀ b ∈ bs, b.state = BatteryState.Full) →
      (∀ b ∈ bs, b.state = BatteryState.Unknown ∨
          b.state = BatteryState.NotCharging ∨ b.state = BatteryState.Full) →
        (getGlobalBattery bs).state = BatteryState.AtThreshold) ∧
    ((¬ ∃ b ∈ bs, b.state = BatteryState.Charging) →
      (¬ ∃ b ∈ bs, b.state = BatteryState.Discharging) →
      (¬ ∀ b ∈ bs, b.state = BatteryState.Unknown ∨
          b.state = BatteryState.NotCharging ∨ b.state = BatteryState.Full) →
        (getGlobalBattery bs).state = BatteryState.Discharging) := by
  have hC : bs.any (fun b => b.state == BatteryState.Charging) = true
      ↔ ∃ b ∈ bs, b.state = BatteryState.Charging := by
    simp [List.any_eq_true]
  have hD : bs.any (fun b => b.state == BatteryState.Discharging) = true
      ↔ ∃ b ∈ bs, b.state = BatteryState.Discharging := by
    simp [List.any_eq_true]
  have hF : bs.all (fun b => b.state == BatteryState.Full) = true
      ↔ ∀ b ∈ bs, b.state = BatteryState.Full := by
    simp [List.all_eq_true]
  have hT : bs.all (fun b => b.state == BatteryState.Unknown ||
        b.state == BatteryState.NotCharging || b.state == BatteryState.Full) = true
      ↔ ∀ b ∈ bs, b.state = BatteryState.Unknown ∨
          b.state = BatteryState.NotCharging ∨ b.state = BatteryState.Full := by
    simp [List.all_eq_true, or_assoc]
  simp only [getGlobalBattery, getGlobalBatteryState]
  refine ⟨fun h1 => ?_, fun h1 h2 => ?_, fun h1 h2 h3 => ?_,
    fun h1 h2 h3 h4 => ?_, fun h1 h2 h4 => ?_⟩
  · rw [if_pos (hC.mpr h1)]
  · rw [if_neg (fun hc => h1 (hC.mp hc)), if_pos (hD.mpr h2)]
  · rw [if_neg (fun hc => h1 (hC.mp hc)), if_neg (fun hd => h2 (hD.mp hd)),
      if_pos (hF.mpr h3)]
  · rw [if_neg (fun hc => h1 (hC.mp hc)), if_neg (fun hd => h2 (hD.mp hd)),
      if_neg (fun hf => h3 (hF.mp hf)), if_pos (hT.mpr h4)]
  · have h3 : ¬ ∀ b ∈ bs, b.state = BatteryState.Full := by
      intro hf
      exact h4 (fun b hb => Or.inr (Or.inr (hf b hb)))
    rw [if_neg (fun hc => h1 (hC.mp hc)), if_neg (fun hd => h2 (hD.mp hd)),
      if_neg (fun hf => h3 (hF.mp hf)), if_neg (fun ht => h4 (hT.mp ht))]

/-- C1 witness at a concrete two-battery input. -/
theorem c1_global_state_priority_witness :
    (getGlobalBattery [⟨.Full, 1, 2⟩, ⟨.Charging, 1, 2⟩]).state
      = BatteryState.Charging :=
  (c1_global_state_priority [⟨.Full, 1, 2⟩, ⟨.Charging, 1, 2⟩] (by decide)).1
    ⟨⟨.Charging, 1, 2⟩, by decide, rfl⟩

/-! ## C2: the global level formula -/

/-- C2: for non-empty readings with every `energy_full > 0` (and the
sums inside the `u64` range, where the Rust arithmetic does not wrap),
the global level is `min 100 (sum now * 100 / sum full)` — energies are
summed across batteries before the one division — the result is at most
100, and the divisor of that division is positive. -/
theorem c2_global_level (bs : List Battery) (hne : bs ≠ [])
    (hfull : ∀ b ∈ bs, 0 < b.full_uwh)
    (hnowlim : (bs.map Battery.now_uwh).sum * 100 < u64Lim)
    (hfulllim : (bs.map Battery.full_uwh).sum < u64Lim) :
    0 < (bs.map Battery.full_uwh).sum ∧
    (getGlobalBattery bs).level
      = min 100 ((bs.map Battery.now_uwh).sum * 100 / (bs.map Battery.full_uwh).sum) ∧
    (getGlobalBattery bs).level ≤ 100 := by
  have hpos : 0 < (bs.map Battery.full_uwh).sum := by
    cases bs with
    | nil => exact absurd rfl hne
    | cons b t =>
      have hb : 0 < b.full_uwh := hfull b (by simp)
      simp only [List.map_cons, List.sum_cons]
      omega
  have hnowsum : wrapSum (bs.map Battery.now_uwh) = (bs.map Battery.now_uwh).sum :=
    wrapSum_eq_sum _ (by omega)
  have hfullsum : wrapSum (bs.map Battery.full_uwh) = (bs.map Battery.full_uwh).sum :=
    wrapSum_eq_sum _ hfulllim
  have hmul : wrapMul ((bs.map Battery.now_uwh).sum) 100
      = (bs.map Battery.now_uwh).sum * 100 := by
    unfold wrapMul
    exact Nat.mod_eq_of_lt hnowlim
  refine ⟨hpos, ?_, ?_⟩ <;>
    · simp only [getGlobalBattery, Battery.level, hnowsum, hfullsum, hmul]
      split <;> omega

/-- C2 witness: one battery at 30%. -/
theorem c2_global_level_witness :
    0 < (([⟨.Discharging, 3000, 10000⟩] : List Battery).map Battery.full_uwh).sum ∧
    (getGlobalBattery [⟨.Discharging, 3000, 10000⟩]).level
      = min 100 ((([⟨.Discharging, 3000, 10000⟩] : List Battery).map Battery.now_uwh).sum * 100
          / (([⟨.Discharging, 3000, 10000⟩] : List Battery).map Battery.full_uwh).sum) ∧
    (getGlobalBattery [⟨.Discharging, 3000, 10000⟩]).level ≤ 100 :=
  c2_global_level [⟨.Discharging, 3000, 10000⟩] (by decide)
    (by decide) (by decide) (by decide)

/-! ## C10: the sysfs status parser is partial -/

/-- C10: `name_to_battery_state` succeeds exactly on the seven canonical
serde strings, mapping each to its variant, and for every other string
the `.unwrap()` panics — modelled as `none`. -/
theorem c10_name_parser_partial :
    (∀ s : String, (nameToBatteryState s).isSome ↔
      s = "Charging" ∨ s = "Discharging" ∨ s = "Not charging" ∨ s = "Full" ∨
      s = "Unknown" ∨ s = "At threshold" ∨ s = "Invalid") ∧
    (∀ s : String, s ≠ "Charging" → s ≠ "Discharging" → s ≠ "Not charging" →
      s ≠ "Full" → s ≠ "Unknown" → s ≠ "At threshold" → s ≠ "Invalid" →
      nameToBatteryState s = none) ∧
    nameToBatteryState "Charging" = some .Charging ∧
    nameToBatteryState "Discharging" = some .Discharging ∧
    nameToBatteryState "Not charging" = some .NotCharging ∧
    nameToBatteryState "Full" = some .Full ∧
    nameToBatteryState "Unknown" = some .Unknown ∧
    nameToBatteryState "At threshold" = some .AtThreshold ∧
    nameToBatteryState "Invalid" = some .Invalid := by
  refine ⟨fun s => ?_, fun s h1 h2 h3 h4 h5 h6 h7 => ?_,
    by decide, by decide, by decide, by decide, by decide, by decide, by decide⟩
  · unfold nameToBatteryState
    split_ifs <;> simp_all
  · unfold nameToBatteryState
    split_ifs <;> simp_all

/-- C10 witness: an unexpected sysfs string is rejected. -/
theorem c10_name_parser_partial_witness :
    nameToBatteryState "Fully charged" = none :=
  c10_name_parser_partial.2.1 "Fully charged" (by decide) (by decide) (by decide)
    (by decide) (by decide) (by decide) (by decide)

/-! ## C6: the end-of-loop sleep (corrected) -/

/-- C6 counterexample: with a 30-unit interval and a 35-unit tick, the
code performs **no** sleep at all (`tickSleep = none`) and the next tick
starts immediately at `start + elapsed`, not after a further full
interval as the claim's `now + interval` resynchronisation asserts. -/
theorem c6_counterexample :
    MainRs.tickSleep 30 35 = none ∧
    MainRs.nextTickStart 100 35 30 = 135 ∧
    MainRs.nextTickStart 100 35 30 ≠ 100 + 35 + 30 := by
  refine ⟨rfl, rfl, by decide⟩

/-- C6 amended: when the tick finishes within the interval the loop
sleeps exactly the positive remainder `interval - elapsed` (waking a full
interval after the tick started); when the tick overruns the interval the
sleep is skipped entirely and the next tick starts immediately.  No
zero-duration or negative sleep is ever requested. -/
theorem c6_amended_sleep (interval elapsed start : Nat) :
    (elapsed < interval →
      MainRs.tickSleep interval elapsed = some (interval - elapsed) ∧
      0 < interval - elapsed ∧
      MainRs.nextTickStart start elapsed interval = start + interval) ∧
    (interval ≤ elapsed →
      MainRs.tickSleep interval elapsed = none ∧
      MainRs.nextTickStart start elapsed interval = start + elapsed) := by
  unfold MainRs.nextTickStart MainRs.tickSleep
  refine ⟨fun h => ?_, fun h => ?_⟩
  · rw [if_pos h]
    refine ⟨rfl, by omega, by simp; omega⟩
  · rw [if_neg (by omega)]
    exact ⟨rfl, by simp⟩

/-- C6 amended witness: both regimes at concrete instants. -/
theorem c6_amended_sleep_witness :
    (MainRs.tickSleep 30 10 = some 20 ∧ 0 < 30 - 10 ∧
      MainRs.nextTickStart 0 10 30 = 0 + 30) ∧
    (MainRs.tickSleep 30 35 = none ∧ MainRs.nextTickStart 7 35 30 = 7 + 35) :=
  ⟨(c6_amended_sleep 30 10 0).1 (by decide),
    ⟨((c6_amended_sleep 30 35 7).2 (by decide)).1,
      ((c6_amended_sleep 30 35 7).2 (by decide)).2⟩⟩

/-! ## C8: at most one live notification per slot -/

theorem liveFrom_append (acc : List Nat) (a b : List Notif.NEvent) :
    Notif.liveFrom acc (a ++ b) = Notif.liveFrom (Notif.liveFrom acc a) b := by
  simp [Notif.liveFrom, List.foldl_append]

theorem show_live_step (s : Notif.SingleNotification) (t : String) (u : Urgency)
    (tmo : Int) (cnt : Nat) (ok : Bool) (acc : List Nat)
    (ha : acc = s.hnd.toList) (hb : ∀ h ∈ acc, h < cnt) :
    Notif.liveFrom acc (s.show t u tmo cnt ok).2.2
        = (s.show t u tmo cnt ok).1.hnd.toList ∧
    (∀ h ∈ (s.show t u tmo cnt ok).1.hnd.toList, h < (s.show t u tmo cnt ok).2.1) := by
  by_cases hsum : s.summary = some t
  · simp only [Notif.SingleNotification.show, if_pos hsum]
    exact ⟨by simpa [Notif.liveFrom] using ha, ha ▸ hb⟩
  · cases hh : s.hnd with
    | none =>
      have ha' : acc = [] := by rw [ha, hh]; rfl
      subst ha'
      cases ok <;>
        simp [Notif.SingleNotification.show, hsum, Notif.SingleNotification.close,
          hh, Notif.liveFrom]
    | some h =>
      have ha' : acc = [h] := by rw [ha, hh]; rfl
      subst ha'
      cases ok <;>
        simp [Notif.SingleNotification.show, hsum, Notif.SingleNotification.close,
          hh, Notif.liveFrom]

theorem close_live_step (s : Notif.SingleNotification) (cnt : Nat) (acc : List Nat)
    (ha : acc = s.hnd.toList) (hb : ∀ h ∈ acc, h < cnt) :
    Notif.liveFrom acc (s.close).2 = (s.close).1.hnd.toList ∧
    (∀ h ∈ (s.close).1.hnd.toList, h < cnt) := by
  cases hh : s.hnd with
  | none =>
    have ha' : acc = [] := by rw [ha, hh]; rfl
    subst ha'
    refine ⟨by simp [Notif.SingleNotification.close, hh, Notif.liveFrom], ?_⟩
    intro h2 hmem
    simp [Notif.SingleNotification.close, hh] at hmem
  | some h =>
    have ha' : acc = [h] := by rw [ha, hh]; rfl
    subst ha'
    refine ⟨by simp [Notif.SingleNotification.close, hh, Notif.liveFrom], ?_⟩
    intro h2 hmem
    simp [Notif.SingleNotification.close, hh] at hmem

theorem runOps_live_inv (ops : List Notif.SlotOp) :
    ∀ (s : Notif.SingleNotification) (cnt : Nat) (acc : List Nat),
      acc = s.hnd.toList → (∀ h ∈ acc, h < cnt) →
      Notif.liveFrom acc (Notif.runOps s cnt ops).2.2
          = (Notif.runOps s cnt ops).1.hnd.toList ∧
      (∀ h ∈ (Notif.runOps s cnt ops).1.hnd.toList,
          h < (Notif.runOps s cnt ops).2.1) := by
  induction ops with
  | nil =>
    intro s cnt acc ha hb
    exact ⟨by simpa [Notif.runOps, Notif.liveFrom] using ha, ha ▸ hb⟩
  | cons op rest ih =>
    intro s cnt acc ha hb
    cases op
    · next t u tmo ok =>
      have hstep := show_live_step s t u tmo cnt ok acc ha hb
      have hrec := ih (s.show t u tmo cnt ok).1 (s.show t u tmo cnt ok).2.1
        ((s.show t u tmo cnt ok).1.hnd.toList) rfl hstep.2
      simp only [Notif.runOps]
      rw [liveFrom_append, hstep.1]
      exact hrec
    · next =>
      have hstep := close_live_step s cnt acc ha hb
      have hrec := ih (s.close).1 cnt ((s.close).1.hnd.toList) rfl hstep.2
      simp only [Notif.runOps]
      rw [liveFrom_append, hstep.1]
      exact hrec

/-- C8: starting from a fresh slot, after any sequence of `show`/`close`
operations the set of live notification handles of the slot is exactly
the slot's current handle — hence at most one notification is live at any
time; dropping the slot closes the remaining live handle, leaving none;
and a `show` with a new text closes the previously live notification
strictly before issuing the new underlying `show` call. -/
theorem c8_at_most_one_live (ops : List Notif.SlotOp) :
    Notif.liveAfter (Notif.runOps Notif.SingleNotification.new 0 ops).2.2
        = (Notif.runOps Notif.SingleNotification.new 0 ops).1.hnd.toList ∧
    (Notif.liveAfter (Notif.runOps Notif.SingleNotification.new 0 ops).2.2).length ≤ 1 ∧
    Notif.liveFrom
        (Notif.liveAfter (Notif.runOps Notif.SingleNotification.new 0 ops).2.2)
        ((Notif.runOps Notif.SingleNotification.new 0 ops).1.drop).2 = [] ∧
    (∀ (s : Notif.SingleNotification) (h : Nat) (t : String) (u : Urgency)
        (tmo : Int) (cnt : Nat) (ok : Bool),
      s.hnd = some h → s.summary ≠ some t →
      (s.show t u tmo cnt ok).2.2
        = [Notif.NEvent.closeCall h, Notif.NEvent.showCall cnt ok t u tmo]) := by
  have hinv := runOps_live_inv ops Notif.SingleNotification.new 0 []
    (by simp [Notif.SingleNotification.new]) (by simp)
  have h1 : Notif.liveAfter (Notif.runOps Notif.SingleNotification.new 0 ops).2.2
      = (Notif.runOps Notif.SingleNotification.new 0 ops).1.hnd.toList := hinv.1
  refine ⟨h1, ?_, ?_, ?_⟩
  · rw [h1]
    cases (Notif.runOps Notif.SingleNotification.new 0 ops).1.hnd <;> simp
  · rw [h1]
    cases hh : (Notif.runOps Notif.SingleNotification.new 0 ops).1.hnd <;>
      simp [Notif.SingleNotification.drop, Notif.SingleNotification.close, hh,
        Notif.liveFrom]
  · intro s h t u tmo cnt ok hhnd hsum
    simp [Notif.SingleNotification.show, hsum, Notif.SingleNotification.close, hhnd]

/-- C8 witness: the close-before-show event order at a concrete slot. -/
theorem c8_at_most_one_live_witness :
    ((Notif.SingleNotification.mk (some 3) (some "Battery low")).show
        "Battery critical" .Critical 0 7 true).2.2
      = [Notif.NEvent.closeCall 3,
          Notif.NEvent.showCall 7 true "Battery critical" .Critical 0] :=
  (c8_at_most_one_live []).2.2.2 ⟨some 3, some "Battery low"⟩ 3
    "Battery critical" .Critical 0 7 true rfl (by decide)

/-! ## C7: show is idempotent on identical text -/

/-- C7: calling `show` twice in succession with identical text (on a
slot not already displaying that text) leaves the second call a complete
no-op — same slot state, same handle counter, no events — and the two
calls together issue exactly one underlying `show` call. -/
theorem c7_show_idempotent (s : Notif.SingleNotification) (text : String)
    (u : Urgency) (tmo : Int) (cnt : Nat) (ok1 ok2 : Bool)
    (hnew : s.summary ≠ some text) :
    ((s.show text u tmo cnt ok1).1.show text u tmo (s.show text u tmo cnt ok1).2.1 ok2).1
        = (s.show text u tmo cnt ok1).1 ∧
    ((s.show text u tmo cnt ok1).1.show text u tmo (s.show text u tmo cnt ok1).2.1 ok2).2.1
        = (s.show text u tmo cnt ok1).2.1 ∧
    ((s.show text u tmo cnt ok1).1.show text u tmo (s.show text u tmo cnt ok1).2.1 ok2).2.2
        = [] ∧
    ((s.show text u tmo cnt ok1).2.2
        ++ ((s.show text u tmo cnt ok1).1.show text u tmo (s.show text u tmo cnt ok1).2.1 ok2).2.2).filter
          Notif.NEvent.isShow
      = [Notif.NEvent.showCall cnt ok1 text u tmo] := by
  simp only [Notif.SingleNotification.show, if_neg hnew]
  cases hh : s.hnd <;>
    simp [Notif.SingleNotification.close, hh, Notif.NEvent.isShow]

/-! ## Main-loop helper lemmas -/

theorem mainShow_summary (s : MainRs.SingleNotification) (t : String)
    (u : Urgency) (cnt : Nat) (oracle : Nat → Bool) :
    ((s.show t u cnt oracle).1).summary = t := by
  unfold MainRs.SingleNotification.show
  split_ifs with h
  · exact h
  all_goals rfl

theorem mainClose_hnd (s : MainRs.SingleNotification) :
    ((s.close).1).hnd = none := by
  unfold MainRs.SingleNotification.close
  cases hs : s.hnd <;> simp [hs]

theorem runCmd_not_mem_close (s : MainRs.SingleNotification) (c : String) :
    MainRs.Event.runCmd c ∉ (s.close).2 := by
  unfold MainRs.SingleNotification.close
  cases hs : s.hnd <;> simp

theorem runCmd_not_mem_show (s : MainRs.SingleNotification) (t : String)
    (u : Urgency) (cnt : Nat) (oracle : Nat → Bool) (c : String) :
    MainRs.Event.runCmd c ∉ (s.show t u cnt oracle).2.2 := by
  unfold MainRs.SingleNotification.show
  split_ifs
  · simp
  all_goals
    intro hmem
    rcases List.mem_append.mp hmem with hmem1 | hmem1
    · exact runCmd_not_mem_close s c hmem1
    · simp at hmem1

theorem runCmd_not_mem_btFold (cfg : MainRs.Config) (oracle : Nat → Bool)
    (bbats : List BluetoothBattery) (c : String) :
    ∀ (m : List (String × MainRs.SingleNotification)) (cnt : Nat)
      (evs : List MainRs.Event),
      MainRs.Event.runCmd c ∉ evs →
      MainRs.Event.runCmd c
        ∉ (bbats.foldl (MainRs.btDeviceStep cfg oracle) (m, cnt, evs)).2.2 := by
  induction bbats with
  | nil => intro m cnt evs hev; simpa using hev
  | cons b t ih =>
    intro m cnt evs hev
    simp only [List.foldl_cons]
    rw [MainRs.btDeviceStep]
    split_ifs with hlvl
    · refine ih _ _ _ ?_
      intro hmem
      rcases List.mem_append.mp hmem with h1 | h1
      · exact hev h1
      · exact runCmd_not_mem_show _ _ _ _ _ c h1
    · refine ih _ _ _ ?_
      intro hmem
      rcases List.mem_append.mp hmem with h1 | h1
      · exact hev h1
      · exact runCmd_not_mem_close _ c h1

theorem runCmd_not_mem_btStep (cfg : MainRs.Config)
    (m : List (String × MainRs.SingleNotification))
    (bbats : List BluetoothBattery) (cnt : Nat) (oracle : Nat → Bool)
    (c : String) :
    MainRs.Event.runCmd c ∉ (MainRs.bluetoothStep cfg m bbats cnt oracle).2.2 := by
  unfold MainRs.bluetoothStep
  intro hmem
  rcases List.mem_append.mp hmem with h1 | h1
  · exact runCmd_not_mem_btFold cfg oracle bbats c m cnt [] (by simp) h1
  · rcases List.mem_filterMap.mp h1 with ⟨kv, _, hkv⟩
    cases hh : kv.2.hnd <;> simp [hh] at hkv

theorem runCmd_not_mem_monStep (cfg : MainRs.Config) (global : Battery)
    (monitors : Nat) (mn : MainRs.SingleNotification) (cnt : Nat)
    (oracle : Nat → Bool) (c : String) :
    MainRs.Event.runCmd c
      ∉ (MainRs.monStep cfg global monitors mn cnt oracle).2.2 := by
  unfold MainRs.monStep
  split_ifs
  · exact runCmd_not_mem_show _ _ _ _ _ c
  · exact runCmd_not_mem_close _ c
  · exact runCmd_not_mem_close _ c

theorem lowStep_runCmd_iff (cfg : MainRs.Config) (global : Battery)
    (start : Nat) (ln : MainRs.SingleNotification) (nse cnt : Nat)
    (oracle : Nat → Bool) (c : String) :
    MainRs.Event.runCmd c
        ∈ (MainRs.lowStep cfg global start ln nse cnt oracle).2.2.2 ↔
      global.state ≠ BatteryState.Charging ∧ global.level ≤ cfg.sleep_pct ∧
        nse < start ∧ c = cfg.sleep_command := by
  unfold MainRs.lowStep
  split_ifs with h1 h2 h3 h4
  · simp only [iff_false_intro (runCmd_not_mem_close ln c)]
    simp [h1]
  · constructor
    · intro hmem
      rcases List.mem_append.mp hmem with hm | hm
      · exact absurd hm (runCmd_not_mem_show _ _ _ _ _ c)
      · simp at hm
        exact ⟨h1, h2, h3, hm⟩
    · intro ⟨_, _, _, hc⟩
      subst hc
      exact List.mem_append.mpr (Or.inr (by simp))
  · simp only [iff_false_intro (runCmd_not_mem_show ln _ _ _ _ c)]
    simp
    intro _ _ h
    omega
  · simp only [iff_false_intro (runCmd_not_mem_show ln _ _ _ _ c)]
    simp
    intro _ h
    omega
  · simp
    intro _ h
    omega

theorem lowStep_nse (cfg : MainRs.Config) (global : Battery)
    (start : Nat) (ln : MainRs.SingleNotification) (nse cnt : Nat)
    (oracle : Nat → Bool) :
    (global.state ≠ BatteryState.Charging → global.level ≤ cfg.sleep_pct →
      nse < start →
      (MainRs.lowStep cfg global start ln nse cnt oracle).2.1 = start + 60) ∧
    (global.state ≠ BatteryState.Charging → global.level ≤ cfg.sleep_pct →
      ¬ nse < start →
      (MainRs.lowStep cfg global start ln nse cnt oracle).2.1 = nse) := by
  unfold MainRs.lowStep
  constructor <;> intro h1 h2 h3 <;> split_ifs <;> simp_all

theorem lowStep_slot (cfg : MainRs.Config) (global : Battery)
    (start : Nat) (ln : MainRs.SingleNotification) (nse cnt : Nat)
    (oracle : Nat → Bool) :
    (global.state = BatteryState.Charging →
      ((MainRs.lowStep cfg global start ln nse cnt oracle).1).hnd = none) ∧
    (global.state ≠ BatteryState.Charging → global.level ≤ cfg.sleep_pct →
      ((MainRs.lowStep cfg global start ln nse cnt oracle).1).summary
        = "Battery critical") ∧
    (global.state ≠ BatteryState.Charging → cfg.sleep_pct < global.level →
      cfg.low_pct < global.level →
      (MainRs.lowStep cfg global start ln nse cnt oracle).1 = ln) := by
  refine ⟨fun h1 => ?_, fun h1 h2 => ?_, fun h1 h2 h3 => ?_⟩ <;>
    unfold MainRs.lowStep
  · rw [if_pos h1]
    exact mainClose_hnd ln
  · rw [if_neg h1, if_pos h2]
    split_ifs <;> exact mainShow_summary ln _ _ _ oracle
  · rw [if_neg h1, if_neg (by omega), if_neg (by omega)]

theorem tick_lowSlot (cfg : MainRs.Config) (s : MainRs.LoopState) (start : Nat)
    (batteries : List Battery) (monitors : Nat)
    (bbats : List BluetoothBattery) (oracle : Nat → Bool) :
    (MainRs.tick cfg s start batteries monitors bbats oracle).1.low_notif
      = (MainRs.lowStep cfg (getGlobalBattery batteries) start s.low_notif
          s.next_sleep_epoch
          (MainRs.stateStep (getGlobalBattery batteries) s.state_notif
            s.counter oracle).2.1 oracle).1 := rfl

theorem tick_nse (cfg : MainRs.Config) (s : MainRs.LoopState) (start : Nat)
    (batteries : List Battery) (monitors : Nat)
    (bbats : List BluetoothBattery) (oracle : Nat → Bool) :
    (MainRs.tick cfg s start batteries monitors bbats oracle).1.next_sleep_epoch
      = (MainRs.lowStep cfg (getGlobalBattery batteries) start s.low_notif
          s.next_sleep_epoch
          (MainRs.stateStep (getGlobalBattery batteries) s.state_notif
            s.counter oracle).2.1 oracle).2.1 := rfl

theorem tick_runCmd_iff (cfg : MainRs.Config) (s : MainRs.LoopState)
    (start : Nat) (batteries : List Battery) (monitors : Nat)
    (bbats : List BluetoothBattery) (oracle : Nat → Bool) (c : String) :
    MainRs.Event.runCmd c
        ∈ (MainRs.tick cfg s start batteries monitors bbats oracle).2 ↔
      (getGlobalBattery batteries).state ≠ BatteryState.Charging ∧
        (getGlobalBattery batteries).level ≤ cfg.sleep_pct ∧
        s.next_sleep_epoch < start ∧ c = cfg.sleep_command := by
  rw [← lowStep_runCmd_iff cfg (getGlobalBattery batteries) start s.low_notif
    s.next_sleep_epoch
    (MainRs.stateStep (getGlobalBattery batteries) s.state_notif s.counter
      oracle).2.1 oracle c]
  show MainRs.Event.runCmd c ∈ _ ++ _ ++ _ ++ _ ↔ _
  constructor
  · intro hmem
    rcases List.mem_append.mp hmem with hm | hm
    · rcases List.mem_append.mp hm with hm1 | hm1
      · rcases List.mem_append.mp hm1 with hm2 | hm2
        · exact absurd hm2 (runCmd_not_mem_show _ _ _ _ _ c)
        · exact hm2
      · exact absurd hm1 (runCmd_not_mem_monStep _ _ _ _ _ _ c)
    · exfalso
      revert hm
      show MainRs.Event.runCmd c ∉ _
      split_ifs
      · exact runCmd_not_mem_btStep _ _ _ _ _ c
      · simp
  · intro hmem
    exact List.mem_append.mpr (Or.inl (List.mem_append.mpr (Or.inl
      (List.mem_append.mpr (Or.inr hmem)))))

/-! ## C5: the suspend command backoff -/

/-- C5: on a critical tick (global state not `Charging`, level at most
`sleep_pct`) the low slot is put on the critical alert text, and the
suspend command runs **iff** the tick's start time is strictly past
`next_sleep_epoch`; on firing, `next_sleep_epoch` becomes the start time
plus the 60-second backoff (so a critical tick at most 60 seconds later
cannot re-fire, and one strictly later than 60 seconds re-fires),
otherwise it is unchanged.  Since `next_sleep_epoch` is initialised to
the startup instant, the command fires on the first critical tick. -/
theorem c5_suspend_backoff (cfg : MainRs.Config) (s : MainRs.LoopState)
    (start : Nat) (batteries : List Battery) (monitors : Nat)
    (bbats : List BluetoothBattery) (oracle : Nat → Bool)
    (hnc : (getGlobalBattery batteries).state ≠ BatteryState.Charging)
    (hcrit : (getGlobalBattery batteries).level ≤ cfg.sleep_pct) :
    ((MainRs.tick cfg s start batteries monitors bbats oracle).1.low_notif.summary
        = "Battery critical") ∧
    (MainRs.Event.runCmd cfg.sleep_command
        ∈ (MainRs.tick cfg s start batteries monitors bbats oracle).2 ↔
      s.next_sleep_epoch < start) ∧
    (s.next_sleep_epoch < start →
      (MainRs.tick cfg s start batteries monitors bbats
          oracle).1.next_sleep_epoch = start + 60) ∧
    (¬ s.next_sleep_epoch < start →
      (MainRs.tick cfg s start batteries monitors bbats
          oracle).1.next_sleep_epoch = s.next_sleep_epoch) := by
  refine ⟨?_, ?_, ?_, ?_⟩
  · rw [tick_lowSlot]
    exact (lowStep_slot cfg (getGlobalBattery batteries) start s.low_notif
      s.next_sleep_epoch _ oracle).2.1 hnc hcrit
  · rw [tick_runCmd_iff]
    constructor
    · intro h
      exact h.2.2.1
    · intro h
      exact ⟨hnc, hcrit, h, rfl⟩
  · intro h
    rw [tick_nse]
    exact (lowStep_nse cfg (getGlobalBattery batteries) start s.low_notif
      s.next_sleep_epoch _ oracle).1 hnc hcrit h
  · intro h
    rw [tick_nse]
    exact (lowStep_nse cfg (getGlobalBattery batteries) start s.low_notif
      s.next_sleep_epoch _ oracle).2 hnc hcrit h

/-- C5 witness: a first critical tick at time 1 (startup epoch 0) fires
the suspend command and pushes the backoff epoch to 61. -/
theorem c5_suspend_backoff_witness :
    ((MainRs.tick MainRs.defaultConfig
        ⟨MainRs.SingleNotification.new, MainRs.SingleNotification.new,
          MainRs.SingleNotification.new, 0, [], 0⟩ 1
        [⟨.Discharging, 1000, 10000⟩] 0 [] (fun _ => true)).1.low_notif.summary
      = "Battery critical") ∧
    (MainRs.Event.runCmd MainRs.defaultConfig.sleep_command
        ∈ (MainRs.tick MainRs.defaultConfig
            ⟨MainRs.SingleNotification.new, MainRs.SingleNotification.new,
              MainRs.SingleNotification.new, 0, [], 0⟩ 1
            [⟨.Discharging, 1000, 10000⟩] 0 [] (fun _ => true)).2 ↔
      (0 : Nat) < 1) := by
  have h := c5_suspend_backoff MainRs.defaultConfig
    ⟨MainRs.SingleNotification.new, MainRs.SingleNotification.new,
      MainRs.SingleNotification.new, 0, [], 0⟩ 1
    [⟨.Discharging, 1000, 10000⟩] 0 [] (fun _ => true)
    (by decide) (by decide)
  exact ⟨h.1, h.2.1⟩

/-! ## C3: low-slot handling outside the low band (corrected) -/

/-- C3 counterexample: a tick with global state `Discharging` and level
50 (strictly above the default `low_pct` of 40) leaves a previously live
low-battery notification (handle 5) live — the code only closes the low
slot when the state is `Charging`, not when the level climbs above
`low_pct`, and no "low command already run" latch exists at all. -/
theorem c3_counterexample :
    ((MainRs.tick MainRs.defaultConfig
        ⟨MainRs.SingleNotification.new, ⟨some 5, "Battery low"⟩,
          MainRs.SingleNotification.new, 0, [], 6⟩ 7
        [⟨.Discharging, 5000, 10000⟩] 0 [] (fun _ => true)).1.low_notif.hnd
      = some 5) ∧
    (getGlobalBattery [⟨.Discharging, 5000, 10000⟩]).state
      ≠ BatteryState.Charging ∧
    MainRs.defaultConfig.low_pct
      < (getGlobalBattery [⟨.Discharging, 5000, 10000⟩]).level ∧
    ¬ ((MainRs.tick MainRs.defaultConfig
        ⟨MainRs.SingleNotification.new, ⟨some 5, "Battery low"⟩,
          MainRs.SingleNotification.new, 0, [], 6⟩ 7
        [⟨.Discharging, 5000, 10000⟩] 0 [] (fun _ => true)).1.low_notif.hnd
      = none) := by
  refine ⟨rfl, by decide, by decide, by decide⟩

/-- C3 amended: the low slot is closed on every `Charging` tick; on a
tick whose state is not `Charging` and whose level is strictly above both
`sleep_pct` and `low_pct` the low slot is left completely untouched (an
old notification stays live); and there is no low-band one-shot command —
outside the critical band the tick runs no command at all. -/
theorem c3_amended_low_slot (cfg : MainRs.Config) (s : MainRs.LoopState)
    (start : Nat) (batteries : List Battery) (monitors : Nat)
    (bbats : List BluetoothBattery) (oracle : Nat → Bool) :
    ((getGlobalBattery batteries).state = BatteryState.Charging →
      (MainRs.tick cfg s start batteries monitors bbats
          oracle).1.low_notif.hnd = none) ∧
    ((getGlobalBattery batteries).state ≠ BatteryState.Charging →
      cfg.sleep_pct < (getGlobalBattery batteries).level →
      cfg.low_pct < (getGlobalBattery batteries).level →
      (MainRs.tick cfg s start batteries monitors bbats oracle).1.low_notif
        = s.low_notif) ∧
    (((getGlobalBattery batteries).state = BatteryState.Charging ∨
        cfg.sleep_pct < (getGlobalBattery batteries).level) →
      ∀ c, MainRs.Event.runCmd c
        ∉ (MainRs.tick cfg s start batteries monitors bbats oracle).2) := by
  refine ⟨fun h1 => ?_, fun h1 h2 h3 => ?_, fun hout c hmem => ?_⟩
  · rw [tick_lowSlot]
    exact (lowStep_slot cfg (getGlobalBattery batteries) start s.low_notif
      s.next_sleep_epoch _ oracle).1 h1
  · rw [tick_lowSlot]
    exact (lowStep_slot cfg (getGlobalBattery batteries) start s.low_notif
      s.next_sleep_epoch _ oracle).2.2 h1 h2 h3
  · rcases (tick_runCmd_iff cfg s start batteries monitors bbats oracle
      c).mp hmem with ⟨hnc, hlev, _, _⟩
    rcases hout with h | h
    · exact hnc h
    · omega

/-- C3 amended witness: a `Charging` tick closes the live low slot. -/
theorem c3_amended_low_slot_witness :
    (MainRs.tick MainRs.defaultConfig
        ⟨MainRs.SingleNotification.new, ⟨some 5, "Battery low"⟩,
          MainRs.SingleNotification.new, 0, [], 6⟩ 7
        [⟨.Charging, 1, 2⟩] 0 [] (fun _ => true)).1.low_notif.hnd = none :=
  (c3_amended_low_slot MainRs.defaultConfig
    ⟨MainRs.SingleNotification.new, ⟨some 5, "Battery low"⟩,
      MainRs.SingleNotification.new, 0, [], 6⟩ 7
    [⟨.Charging, 1, 2⟩] 0 [] (fun _ => true)).1 (by decide)

/-! ## C4: state-change handling (corrected) -/

theorem stateText_inj (a b : BatteryState)
    (h : MainRs.stateText a = MainRs.stateText b) : a = b := by
  cases a <;> cases b <;> first
    | rfl
    | exact absurd h (by decide)

theorem mainShow_events_of_ne (s : MainRs.SingleNotification) (t : String)
    (u : Urgency) (cnt : Nat) (oracle : Nat → Bool) (h : s.summary ≠ t) :
    (s.show t u cnt oracle).2.2
      = (s.close).2 ++ [MainRs.Event.showCall cnt (oracle cnt) t u] := by
  unfold MainRs.SingleNotification.show
  rw [if_neg h]

theorem mainShow_noop (s : MainRs.SingleNotification) (t : String)
    (u : Urgency) (cnt : Nat) (oracle : Nat → Bool) (h : s.summary = t) :
    s.show t u cnt oracle = (s, cnt, []) := by
  unfold MainRs.SingleNotification.show
  rw [if_pos h]

/-- C4 counterexample: on a tick whose global state (`Charging`) differs
from the previous tick's (`Discharging`, witnessed by the remembered
state-notification text), the daemon runs **no** shell command at all —
in particular not a state-transition command configured for the new
state; the filtered command-event list of the tick is empty. -/
theorem c4_counterexample :
    (getGlobalBattery [⟨.Charging, 1, 2⟩]).state ≠ BatteryState.Discharging ∧
    ((MainRs.tick MainRs.defaultConfig
        ⟨⟨some 0, MainRs.stateText .Discharging⟩, MainRs.SingleNotification.new,
          MainRs.SingleNotification.new, 0, [], 1⟩ 5
        [⟨.Charging, 1, 2⟩] 0 [] (fun _ => true)).2).filter MainRs.Event.isRun
      = [] := by
  refine ⟨by decide, by decide⟩

/-- C4 amended: on a tick whose global state differs from the previous
tick's state (the state remembered in the state-notification text), a new
underlying notification with text "Battery now `<state-name-lowercase>`"
is displayed, and the slot remembers the new text; on a tick with
unchanged state the state-notification step emits no event and leaves the
slot untouched, even if the level changed; and the only command a tick
can ever run is the suspend command of the critical band — no
state-transition command exists. -/
theorem c4_amended_state_change (cfg : MainRs.Config) (s : MainRs.LoopState)
    (start : Nat) (batteries : List Battery) (monitors : Nat)
    (bbats : List BluetoothBattery) (oracle : Nat → Bool)
    (prev : BatteryState)
    (hsum : s.state_notif.summary = MainRs.stateText prev) :
    ((getGlobalBattery batteries).state ≠ prev →
      MainRs.Event.showCall s.counter (oracle s.counter)
          (MainRs.stateText (getGlobalBattery batteries).state) .Normal
        ∈ (MainRs.tick cfg s start batteries monitors bbats oracle).2 ∧
      (MainRs.tick cfg s start batteries monitors bbats
          oracle).1.state_notif.summary
        = MainRs.stateText (getGlobalBattery batteries).state) ∧
    ((getGlobalBattery batteries).state = prev →
      (MainRs.stateStep (getGlobalBattery batteries) s.state_notif s.counter
          oracle).2.2 = [] ∧
      (MainRs.tick cfg s start batteries monitors bbats oracle).1.state_notif
        = s.state_notif) ∧
    (∀ c, MainRs.Event.runCmd c
        ∈ (MainRs.tick cfg s start batteries monitors bbats oracle).2 →
      c = cfg.sleep_command ∧
      (getGlobalBattery batteries).state ≠ BatteryState.Charging ∧
      (getGlobalBattery batteries).level ≤ cfg.sleep_pct) := by
  refine ⟨fun hne => ⟨?_, ?_⟩, fun heq => ?_, fun c hmem => ?_⟩
  · have hne' : s.state_notif.summary
        ≠ MainRs.stateText (getGlobalBattery batteries).state := by
      rw [hsum]
      intro hcontra
      exact hne (stateText_inj _ _ hcontra).symm
    show MainRs.Event.showCall s.counter (oracle s.counter)
        (MainRs.stateText (getGlobalBattery batteries).state) .Normal
      ∈ _ ++ _ ++ _ ++ _
    refine List.mem_append.mpr (Or.inl (List.mem_append.mpr (Or.inl
      (List.mem_append.mpr (Or.inl ?_)))))
    show _ ∈ (MainRs.stateStep (getGlobalBattery batteries) s.state_notif
      s.counter oracle).2.2
    rw [MainRs.stateStep, mainShow_events_of_ne _ _ _ _ _ hne']
    exact List.mem_append.mpr (Or.inr (by simp))
  · show ((MainRs.stateStep (getGlobalBattery batteries) s.state_notif
        s.counter oracle).1).summary = _
    exact mainShow_summary _ _ _ _ _
  · have hsum' : s.state_notif.summary
        = MainRs.stateText (getGlobalBattery batteries).state := by
      rw [hsum, heq]
    constructor
    · show (s.state_notif.show _ _ _ _).2.2 = []
      rw [mainShow_noop _ _ _ _ _ hsum']
    · show (MainRs.stateStep (getGlobalBattery batteries) s.state_notif
        s.counter oracle).1 = s.state_notif
      rw [MainRs.stateStep, mainShow_noop _ _ _ _ _ hsum']
  · rcases (tick_runCmd_iff cfg s start batteries monitors bbats oracle
      c).mp hmem with ⟨hnc, hlev, _, hc⟩
    exact ⟨hc, hnc, hlev⟩

/-- C4 amended witness: a Discharging→Charging tick displays the new
"Battery now charging" notification. -/
theorem c4_amended_state_change_witness :
    MainRs.Event.showCall 1 true (MainRs.stateText BatteryState.Charging)
        .Normal
      ∈ (MainRs.tick MainRs.defaultConfig
          ⟨⟨some 0, MainRs.stateText .Discharging⟩,
            MainRs.SingleNotification.new, MainRs.SingleNotification.new,
            0, [], 1⟩ 5 [⟨.Charging, 1, 2⟩] 0 [] (fun _ => true)).2 :=
  ((c4_amended_state_change MainRs.defaultConfig
      ⟨⟨some 0, MainRs.stateText .Discharging⟩,
        MainRs.SingleNotification.new, MainRs.SingleNotification.new,
        0, [], 1⟩ 5 [⟨.Charging, 1, 2⟩] 0 [] (fun _ => true)
      .Discharging rfl).1 (by decide)).1

/-! ## C9: Bluetooth slot-map pruning -/

theorem updateSlot_mem (m : List (String × MainRs.SingleNotification))
    (k : String) (v : MainRs.SingleNotification)
    (kv : String × MainRs.SingleNotification) (hkv : kv ∈ m)
    (hne : kv.1 ≠ k) : kv ∈ MainRs.updateSlot m k v := by
  induction m with
  | nil => simp at hkv
  | cons a rest ih =>
    rw [MainRs.updateSlot]
    split_ifs with h
    · rcases List.mem_cons.mp hkv with rfl | h2
      · exact absurd h hne
      · exact List.mem_cons_of_mem _ h2
    · rcases List.mem_cons.mp hkv with rfl | h2
      · exact List.mem_cons_self _ _
      · exact List.mem_cons_of_mem _ (ih h2)

theorem btFold_preserves (cfg : MainRs.Config) (oracle : Nat → Bool)
    (bbats : List BluetoothBattery) :
    ∀ (m : List (String × MainRs.SingleNotification)) (cnt : Nat)
      (evs : List MainRs.Event) (kv : String × MainRs.SingleNotification),
      kv ∈ m → (∀ b ∈ bbats, b.name ≠ kv.1) →
      kv ∈ (bbats.foldl (MainRs.btDeviceStep cfg oracle) (m, cnt, evs)).1 := by
  induction bbats with
  | nil => intro m cnt evs kv hkv _; simpa using hkv
  | cons b t ih =>
    intro m cnt evs kv hkv hname
    simp only [List.foldl_cons]
    refine ih (MainRs.btDeviceStep cfg oracle (m, cnt, evs) b).1
      (MainRs.btDeviceStep cfg oracle (m, cnt, evs) b).2.1
      (MainRs.btDeviceStep cfg oracle (m, cnt, evs) b).2.2 kv ?_
      (fun b' hb' => hname b' (List.mem_cons_of_mem _ hb'))
    exact updateSlot_mem m b.name _ kv hkv
      (Ne.symm (hname b (List.mem_cons_self b t)))

theorem btStep_prune (cfg : MainRs.Config)
    (m : List (String × MainRs.SingleNotification))
    (bbats : List BluetoothBattery) (cnt : Nat) (oracle : Nat → Bool) :
    (∀ kv ∈ (MainRs.bluetoothStep cfg m bbats cnt oracle).1,
      ∃ b ∈ bbats, b.name = kv.1) ∧
    (∀ kv ∈ m, (∀ b ∈ bbats, b.name ≠ kv.1) →
      (∀ h, kv.2.hnd = some h →
        MainRs.Event.closeCall h
          ∈ (MainRs.bluetoothStep cfg m bbats cnt oracle).2.2) ∧
      kv ∉ (MainRs.bluetoothStep cfg m bbats cnt oracle).1) := by
  constructor
  · intro kv hkv
    have := (List.mem_filter.mp hkv).2
    simpa [List.any_eq_true] using this
  · intro kv hkv hname
    have hin : kv ∈ (bbats.foldl (MainRs.btDeviceStep cfg oracle)
        (m, cnt, [])).1 :=
      btFold_preserves cfg oracle bbats m cnt [] kv hkv hname
    have hnotrep : (bbats.any (fun b => b.name == kv.1)) = false := by
      simp only [List.any_eq_false]
      intro b hb
      simpa using hname b hb
    constructor
    · intro h hh
      refine List.mem_append.mpr (Or.inr ?_)
      refine List.mem_filterMap.mpr ⟨kv, ?_, ?_⟩
      · exact List.mem_filter.mpr ⟨hin, by simp [hnotrep]⟩
      · simp [hh]
    · intro hcontra
      have := (List.mem_filter.mp hcontra).2
      rw [hnotrep] at this
      exact absurd this (by simp)

/-- C9: when `bluetooth_low_pct` is nonzero, at the end of any tick the
Bluetooth slot map contains only names reported in that tick's readings;
an entry for a device no longer reported is removed during the tick and,
if it held a live notification handle, a close of that handle is emitted
as part of the removal. -/
theorem c9_bluetooth_prune (cfg : MainRs.Config) (s : MainRs.LoopState)
    (start : Nat) (batteries : List Battery) (monitors : Nat)
    (bbats : List BluetoothBattery) (oracle : Nat → Bool)
    (hbt : cfg.bluetooth_low_pct ≠ 0) :
    (∀ kv ∈ (MainRs.tick cfg s start batteries monitors bbats
        oracle).1.bbat_notifs, ∃ b ∈ bbats, b.name = kv.1) ∧
    (∀ kv ∈ s.bbat_notifs, (∀ b ∈ bbats, b.name ≠ kv.1) →
      (∀ h, kv.2.hnd = some h →
        MainRs.Event.closeCall h
          ∈ (MainRs.tick cfg s start batteries monitors bbats oracle).2) ∧
      kv ∉ (MainRs.tick cfg s start batteries monitors bbats
        oracle).1.bbat_notifs) := by
  have hmap : (MainRs.tick cfg s start batteries monitors bbats
      oracle).1.bbat_notifs
      = (MainRs.bluetoothStep cfg s.bbat_notifs bbats
          (MainRs.monStep cfg (getGlobalBattery batteries) monitors
            s.mon_notif
            (MainRs.lowStep cfg (getGlobalBattery batteries) start
              s.low_notif s.next_sleep_epoch
              (MainRs.stateStep (getGlobalBattery batteries) s.state_notif
                s.counter oracle).2.1 oracle).2.2.1 oracle).2.1 oracle).1 := by
    simp only [MainRs.tick]
    rw [if_pos hbt]
  have hprune := btStep_prune cfg s.bbat_notifs bbats
    (MainRs.monStep cfg (getGlobalBattery batteries) monitors s.mon_notif
      (MainRs.lowStep cfg (getGlobalBattery batteries) start s.low_notif
        s.next_sleep_epoch
        (MainRs.stateStep (getGlobalBattery batteries) s.state_notif
          s.counter oracle).2.1 oracle).2.2.1 oracle).2.1 oracle
  constructor
  · rw [hmap]
    exact hprune.1
  · intro kv hkv hname
    have hkv2 := hprune.2 kv hkv hname
    refine ⟨fun h hh => ?_, by rw [hmap]; exact hkv2.2⟩
    have hclose := hkv2.1 h hh
    simp only [MainRs.tick]
    rw [if_pos hbt]
    exact List.mem_append.mpr (Or.inr hclose)

/-- C9 witness: a device ("Mouse") absent from the tick's readings has
its live notification (handle 2) closed and its entry removed. -/
theorem c9_bluetooth_prune_witness :
    MainRs.Event.closeCall 2
      ∈ (MainRs.tick MainRs.defaultConfig
          ⟨MainRs.SingleNotification.new, MainRs.SingleNotification.new,
            MainRs.SingleNotification.new, 0,
            [("Mouse", ⟨some 2, "Mouse battery low"⟩)], 3⟩ 9
          [⟨.Full, 1, 2⟩] 0 [⟨"Keyboard", 90⟩] (fun _ => true)).2 :=
  (((c9_bluetooth_prune MainRs.defaultConfig
      ⟨MainRs.SingleNotification.new, MainRs.SingleNotification.new,
        MainRs.SingleNotification.new, 0,
        [("Mouse", ⟨some 2, "Mouse battery low"⟩)], 3⟩ 9
      [⟨.Full, 1, 2⟩] 0 [⟨"Keyboard", 90⟩] (fun _ => true)
      (by decide)).2 ("Mouse", ⟨some 2, "Mouse battery low"⟩)
      (by simp) (by decide)).1) 2 rfl

/-- C7 witness: a fresh slot shown the same text twice. -/
theorem c7_show_idempotent_witness :
    ((Notif.SingleNotification.new.show "Battery low" .Critical 0 0 true).1.show
        "Battery low" .Critical 0
        (Notif.SingleNotification.new.show "Battery low" .Critical 0 0 true).2.1 true).2.2
      = [] :=
  (c7_show_idempotent Notif.SingleNotification.new "Battery low" .Critical 0 0
    true true (by decide)).2.2.1

end BatteryNotify
